import Mathlib

/-!
Verification development for the BackupKeyFiles repository.

This file shallowly embeds the parts of the repository that the frozen
claims talk about:

* `lib/encryptor.py` — `FileEncryptor.__init__`, `encrypt_file`, `decrypt_file`;
* `lib/discoverer.py` — `FileDiscoverer.discover_all_files` and its helpers;
* `lib/config.py` — `BackupConfig` loading/merging of the settings;
* `lib/manager.py` — `BackupManager.__init__` and `run_backup`;
* `lib/archiver.py` — `Archiver.compress_files`;
* `keyfiles_backup.py` — `KeyBackup.run_backup`.

Bytes are modelled as `List Nat`, paths as `String`, and the relevant
filesystem effects as explicit state passing.  The AES-GCM primitive itself
is third-party library code (`cryptography.hazmat...AESGCM`), so it is
modelled by an executable ideal AEAD (a keystream cipher plus a 16-byte
checksum tag) that realises the AEAD functional contract the library
documents: deterministic per (key, nonce), decryption inverts encryption,
and decryption is gated on the tag check.  Everything layered on top of the
primitive (the `[nonce][ciphertext||tag]` framing, whole-file processing,
file-creation order, key derivation) is translated directly from the
repository source.
-/

namespace BackupKeyFiles

/-! ### Cipher Engine (`lib/encryptor.py`) -/

/-- Keystream byte `i` of the modelled AEAD primitive. -/
def ksByte (key nonce : List Nat) (i : Nat) : Nat :=
  (key.sum + nonce.sum + i) % 256

/-- XOR a byte list against the keystream, starting at keystream index `i`.
Applying it twice with the same key, nonce and start index is the identity. -/
def xorKs (key nonce : List Nat) : Nat → List Nat → List Nat
  | _, [] => []
  | i, b :: bs => (b ^^^ ksByte key nonce i) :: xorKs key nonce (i + 1) bs

/-- The 16-byte authentication tag of the modelled AEAD primitive, computed
over the key, the nonce and the ciphertext. -/
def gcmTag (key nonce ct : List Nat) : List Nat :=
  (List.range 16).map fun j => (key.sum + nonce.sum + ct.sum + j) % 256

/-- Model of `AESGCM.encrypt(nonce, plaintext, None)`: the ciphertext with the
16-byte authentication tag appended (`ciphertext||tag`). -/
def aesgcmEncrypt (key nonce pt : List Nat) : List Nat :=
  xorKs key nonce 0 pt ++ gcmTag key nonce (xorKs key nonce 0 pt)

/-- Model of `AESGCM.decrypt(nonce, data, None)`: splits `data` into
`ciphertext||tag`, checks the tag, and returns `none` (the `InvalidTag`
exception) when the check fails; only a successful check releases plaintext. -/
def aesgcmDecrypt (key nonce blob : List Nat) : Option (List Nat) :=
  if 16 ≤ blob.length then
    if blob.drop (blob.length - 16) = gcmTag key nonce (blob.take (blob.length - 16)) then
      some (xorKs key nonce 0 (blob.take (blob.length - 16)))
    else none
  else none

/-- Content-level embedding of `FileEncryptor.encrypt_file`
(`lib/encryptor.py` lines 16–23): the output blob is the 12-byte nonce
written first, followed by the AEAD output over the whole plaintext. -/
def encrypt_file (key nonce pt : List Nat) : List Nat :=
  nonce ++ aesgcmEncrypt key nonce pt

/-- Content-level embedding of `FileEncryptor.decrypt_file`
(`lib/encryptor.py` lines 25–31): the first 12 bytes are read back as the
nonce (`f_in.read(12)`), the rest is handed to the AEAD decryption. -/
def decrypt_file (key blob : List Nat) : Option (List Nat) :=
  aesgcmDecrypt key (blob.take 12) (blob.drop 12)

/-- Embedding of the key derivation in `FileEncryptor.__init__`
(`lib/encryptor.py` line 13): `self.key = hashlib.sha256(passphrase.encode()).digest()`.
The SHA-256 compression itself is library code, so it is a parameter; the
derivation applies it to the passphrase bytes and to nothing else — there is
no salt input and no cost parameter in the source. -/
def deriveKey (sha256 : List Nat → List Nat) (passphrase : List Nat) : List Nat :=
  sha256 passphrase

/-- Key derivation as performed by one run of the pipeline.  A run has fresh
per-run randomness available (`os.urandom`, modelled by `runSalt`), but
`FileEncryptor.__init__` never consumes it: the derived key is
`sha256(passphrase)` regardless of the run. -/
def deriveKeyForRun (sha256 : List Nat → List Nat) (passphrase runSalt : List Nat) : List Nat :=
  deriveKey sha256 passphrase

/-- Error raised by `FileEncryptor.decrypt_file`. -/
inductive DecryptError
  | invalidTag
  | inputMissing
deriving DecidableEq

/-- Pointwise update of a modelled file system (path ↦ file contents). -/
def updateFs (fs : String → Option (List Nat)) (p : String) (v : Option (List Nat)) :
    String → Option (List Nat) :=
  fun q => if q = p then v else fs q

/-- Stateful embedding of `FileEncryptor.decrypt_file` (`lib/encryptor.py`
lines 25–31) at the file-system level.  The `with open(input,'rb'), open(output,'wb')`
header opens the input first (missing input raises before any mutation) and
then opens the output for writing, which creates or truncates it to empty
*before* the AEAD tag check runs; plaintext is written only on success. -/
def decrypt_file_run (fs : String → Option (List Nat)) (inputPath outputPath : String)
    (key : List Nat) : (String → Option (List Nat)) × Except DecryptError Unit :=
  match fs inputPath with
  | none => (fs, Except.error DecryptError.inputMissing)
  | some blob =>
    let fs1 := updateFs fs outputPath (some [])
    match decrypt_file key blob with
    | none => (fs1, Except.error DecryptError.invalidTag)
    | some pt => (updateFs fs1 outputPath (some pt), Except.ok ())

/-- Flip bit `i` of the byte `b` (for a byte value this is `b XOR 2^i`). -/
def flipBit (b i : Nat) : Nat :=
  if b.testBit i then b - 2 ^ i else b + 2 ^ i

/-- Flip bit `i` of byte `j` of a byte list. -/
def flipByteAt (l : List Nat) (j i : Nat) : List Nat :=
  l.set j (flipBit (l.getD j 0) i)

/-! ### Rule Evaluator (`lib/discoverer.py`) -/

/-- Snapshot of the file system as queried by `FileDiscoverer`: path
existence, regular-file and directory tests, non-recursive directory
listings, glob matching, `~` expansion and the `HISTFILE` environment
variable.  Discovery runs against one fixed snapshot. -/
structure FileSystem where
  home : String
  pathExists : String → Bool
  isFile : String → Bool
  isDir : String → Bool
  listDir : String → List String
  globMatch : String → String → List String
  rglobMatch : String → String → List String
  expanduser : String → String
  histfileEnv : Option String

/-- Path join, `dir / name`. -/
def pjoin (d f : String) : String := d ++ "/" ++ f

/-- Embedding of `FileDiscoverer.get_shell_history_files` (`lib/discoverer.py`
lines 11–30): the fixed catalogue of history file names under the home
directory, each kept when it exists and is a regular file, plus the
`HISTFILE` override (skipped when unset, empty, missing, not a regular file,
or already collected). -/
def get_shell_history_files (fs : FileSystem) : List String :=
  let common := [".bash_history", ".zsh_history", ".fish_history",
                 ".python_history", ".node_repl_history"]
  let historyFiles :=
    (common.map (pjoin fs.home)).filter fun p => fs.pathExists p && fs.isFile p
  match fs.histfileEnv with
  | none => historyFiles
  | some h =>
    if h != "" && fs.pathExists h && fs.isFile h && !(historyFiles.contains h) then
      historyFiles ++ [h]
    else historyFiles

/-- Embedding of `FileDiscoverer.get_ssh_key_files` (`lib/discoverer.py`
lines 32–40): all regular files directly inside `~/.ssh` (non-recursive). -/
def get_ssh_key_files (fs : FileSystem) : List String :=
  let sshDir := pjoin fs.home ".ssh"
  if fs.isDir sshDir then (fs.listDir sshDir).filter fs.isFile else []

/-- Embedding of `FileDiscoverer.get_gpg_key_files` (`lib/discoverer.py`
lines 42–50): all regular files directly inside `~/.gpg` (non-recursive). -/
def get_gpg_key_files (fs : FileSystem) : List String :=
  let gpgDir := pjoin fs.home ".gpg"
  if fs.isDir gpgDir then (fs.listDir gpgDir).filter fs.isFile else []

/-- The dict-typed, string-tagged rules of `files_to_include`, as read by
`discover_all_files`.  `customDirectory` carries the values obtained from
`rule.get("patterns", ["*"])` and `rule.get("recursive", True)`; a rule whose
`type` tag matches no branch contributes nothing (`otherType`). -/
inductive BackupRule
  | shellHistory
  | sshKeys
  | gpgKeys
  | customPath (path : String)
  | customDirectory (path : String) (patterns : List String) (recursive : Bool)
  | otherType
deriving DecidableEq

/-- The files one rule contributes to the accumulating set, per the branches
of `FileDiscoverer.discover_all_files` (`lib/discoverer.py` lines 56–78). -/
def ruleFiles (fs : FileSystem) : BackupRule → List String
  | .shellHistory => get_shell_history_files fs
  | .sshKeys => get_ssh_key_files fs
  | .gpgKeys => get_gpg_key_files fs
  | .customPath p =>
    let q := fs.expanduser p
    if fs.pathExists q && fs.isFile q then [q] else []
  | .customDirectory p pats recursive =>
    let d := fs.expanduser p
    if fs.isDir d then
      pats.flatMap fun pat => if recursive then fs.rglobMatch d pat else fs.globMatch d pat
    else []
  | .otherType => []

/-- Embedding of `FileDiscoverer.discover_all_files` (`lib/discoverer.py`
lines 52–82): each rule's files are added to a set (`List.insert` models the
Python `set.update` deduplication), and the final list keeps only the
members that are regular files. -/
def discover_all_files (fs : FileSystem) (rules : List BackupRule) : List String :=
  let allFiles :=
    rules.foldl (fun acc r => (ruleFiles fs r).foldl (fun a f => a.insert f) acc) []
  allFiles.filter fs.isFile

/-! ### Configuration (`lib/config.py`) and its consumption (`lib/manager.py`) -/

/-- The enumerated settings of the configuration, as loaded by
`BackupConfig` (`lib/config.py`). -/
structure BackupSettings where
  backup_destination_path : String
  encryption_enabled : Bool
  encryption_passphrase_prompt : Bool
  encryption_key_path : Option String
  temporary_staging_path : String
  archive_format : String
  files_to_include : List BackupRule
deriving DecidableEq

/-- The `DEFAULT_CONFIG` values of `lib/config.py` lines 8–49 (restricted to
the enumerated settings; the destination default lives under the home
directory, which is a parameter of the model). -/
def defaultSettings (home : String) : BackupSettings :=
  { backup_destination_path := home ++ "/backups/my_system_backup"
    encryption_enabled := true
    encryption_passphrase_prompt := true
    encryption_key_path := none
    temporary_staging_path := "/tmp/backup_utility_staging"
    archive_format := "tar.gz"
    files_to_include := [.shellHistory, .sshKeys] }

/-- A user configuration file: any subset of the top-level settings may be
present. -/
structure UserConfig where
  backup_destination_path : Option String := none
  encryption_enabled : Option Bool := none
  encryption_passphrase_prompt : Option Bool := none
  encryption_key_path : Option (Option String) := none
  temporary_staging_path : Option String := none
  archive_format : Option String := none
  files_to_include : Option (List BackupRule) := none

/-- Embedding of `BackupConfig._load_and_merge_config` (`lib/config.py`
lines 77–116) on a successfully parsed configuration file: defaults
overlaid key-by-key with the user values (`_recursive_update`; each of these
settings is a scalar or a list, so a present user value replaces the
default wholesale). -/
def loadConfig (home : String) (u : UserConfig) : BackupSettings :=
  { backup_destination_path :=
      u.backup_destination_path.getD (defaultSettings home).backup_destination_path
    encryption_enabled := u.encryption_enabled.getD (defaultSettings home).encryption_enabled
    encryption_passphrase_prompt :=
      u.encryption_passphrase_prompt.getD (defaultSettings home).encryption_passphrase_prompt
    encryption_key_path := u.encryption_key_path.getD (defaultSettings home).encryption_key_path
    temporary_staging_path :=
      u.temporary_staging_path.getD (defaultSettings home).temporary_staging_path
    archive_format := u.archive_format.getD (defaultSettings home).archive_format
    files_to_include := u.files_to_include.getD (defaultSettings home).files_to_include }

/-- The settings `BackupManager` actually runs with: the keys of its
`self.config_data` dict (`lib/manager.py` lines 20–29). -/
structure ManagerConfigData where
  backup_destination_path : String
  encryption_passphrase_prompt : Bool
  temporary_staging_path : String
  archive_format : String
  files_to_include : List BackupRule
deriving DecidableEq

/-- The hard-coded `self.config_data` dict of `BackupManager.__init__`
(`lib/manager.py` lines 20–29). -/
def hardcodedConfigData : ManagerConfigData :=
  { backup_destination_path := "/tmp/my_backups/"
    encryption_passphrase_prompt := true
    temporary_staging_path := "/tmp/my_backup_staging/"
    archive_format := "tar.gz"
    files_to_include := [.shellHistory, .sshKeys] }

/-- The settings view `BackupManager.__init__` builds from a loaded
configuration (`lib/manager.py` lines 15–29): the `config_path` argument is
never read, and `self.config_data` is assigned the hard-coded dict. -/
def managerConfigData (loaded : BackupSettings) : ManagerConfigData :=
  hardcodedConfigData

/-! ### `BackupManager.__init__` (`lib/manager.py` lines 15–53) -/

/-- Fatal error raised during `BackupManager.__init__`. -/
inductive InitError
  | passphraseMismatch
deriving DecidableEq

/-- Filesystem facts after `BackupManager.__init__` returns or raises. -/
structure InitState where
  destDirCreated : Bool
  stagingCreated : Bool
deriving DecidableEq

/-- Outcome of a completed `BackupManager.__init__`: whether `self.encryptor`
was set (`if passphrase:` — the Python truthiness test, false for `None` and
for the empty string). -/
structure InitOk where
  encryptorPresent : Bool
deriving DecidableEq

/-- Embedding of `BackupManager.__init__` (`lib/manager.py` lines 15–53):
first `Path(backup_destination_path).mkdir(parents=True, exist_ok=True)`
runs (creating the destination directory when it is missing), then — when
prompting is enabled — the passphrase is read twice and a mismatch raises
`ValueError("Passphrases do not match.")`; otherwise the encryptor is set
exactly when the passphrase is truthy.  The staging root is not created
here (only `run_backup` creates it). -/
def backupManagerInit (destExists promptEnabled : Bool) (p1 p2 : String) :
    InitState × Except InitError InitOk :=
  let st : InitState := { destDirCreated := !destExists, stagingCreated := false }
  if promptEnabled then
    if p1 ≠ p2 then (st, Except.error InitError.passphraseMismatch)
    else (st, Except.ok { encryptorPresent := p1 != "" })
  else (st, Except.ok { encryptorPresent := false })

/-- How `run_backup` materialises a file into staging (`lib/manager.py`
lines 93–98): `encrypt_file` when `self.encryptor` is set, otherwise a plain
`shutil.copy2`. -/
inductive StagingMode
  | encrypt
  | copy
deriving DecidableEq

/-- The staging mode chosen by `run_backup` from the `__init__` outcome. -/
def stagingMode (encryptorPresent : Bool) : StagingMode :=
  if encryptorPresent then .encrypt else .copy

/-! ### `BackupManager.run_backup` (`lib/manager.py` lines 55–114) and
`Archiver.compress_files` (`lib/archiver.py` lines 12–27) -/

/-- State of the archive file at its final destination path:
`none` — no file; `some false` — a file exists but is incomplete (just
opened, or abandoned mid-write); `some true` — the complete archive. -/
structure RunFsState where
  stagingExists : Bool
  archive : Option Bool
deriving DecidableEq

/-- Embedding of `BackupManager._setup_staging_area` (`lib/manager.py`
lines 55–60): remove the staging root when it already exists, then recreate
it empty. -/
def setup_staging_area (s : RunFsState) : RunFsState :=
  { s with stagingExists := true }

/-- Embedding of `BackupManager._cleanup_staging_area` (`lib/manager.py`
lines 62–65): remove the staging root when it exists. -/
def cleanup_staging_area (s : RunFsState) : RunFsState :=
  { s with stagingExists := false }

/-- Embedding of `Archiver.compress_files` (`lib/archiver.py` lines 12–27):
`tarfile.open(archive_path_output, "w:gz")` creates the file directly at the
final archive path; the entries are then written into it.  `midWriteFail`
injects a failure while entries are being written: the partially written
file stays at the final path.  There is no temporary-file-then-rename step
in the source. -/
def compress_files (midWriteFail : Bool) (s : RunFsState) : RunFsState × Bool :=
  let opened := { s with archive := some false }
  if midWriteFail then (opened, false)
  else ({ opened with archive := some true }, true)

/-- Failure-injection points for one `run_backup` run, matching the phases
named by the specification: `discovery` — `discover_all_files` raises;
`stagingAt k` — staging raises while processing file `k`;
`archiving` — `compress_files` raises mid-write. -/
inductive RunFail
  | noFail
  | discovery
  | stagingAt (k : Nat)
  | archiving
deriving DecidableEq

/-- Result of one `BackupManager.run_backup` run: final filesystem facts,
whether the run completed without raising, and how many files were staged. -/
structure RunOutcome where
  fs : RunFsState
  ok : Bool
  stagedCount : Nat
deriving DecidableEq

/-- Embedding of `BackupManager.run_backup` (`lib/manager.py` lines 67–114)
with an injected failure.  Discovery runs first (a discovery failure raises
before the staging root is touched).  An empty discovery returns early,
also without touching the staging root.  Otherwise `_setup_staging_area`
recreates the staging root, and the `try`/`finally` guarantees
`_cleanup_staging_area` on every later exit: a staging failure stops after
`k` files, an archiving failure leaves the partially written archive at the
final path, and on success the archive is complete. -/
def run_backup (fail : RunFail) (nFiles : Nat) (s0 : RunFsState) : RunOutcome :=
  match fail with
  | .discovery => { fs := s0, ok := false, stagedCount := 0 }
  | f =>
    if nFiles = 0 then { fs := s0, ok := true, stagedCount := 0 }
    else
      let s1 := setup_staging_area s0
      match f with
      | .stagingAt k =>
        { fs := cleanup_staging_area s1, ok := false, stagedCount := min k nFiles }
      | .archiving =>
        let (s2, _) := compress_files true s1
        { fs := cleanup_staging_area s2, ok := false, stagedCount := nFiles }
      | _ =>
        let (s2, compOk) := compress_files false s1
        { fs := cleanup_staging_area s2, ok := compOk, stagedCount := nFiles }

/-! ### `KeyBackup` (`keyfiles_backup.py`) -/

/-- Failure-injection points for `KeyBackup.run_backup`: `prepare` — a copy
in `prepare_files` raises; `zipWrite` — `create_encrypted_zip` raises while
writing the zip. -/
inductive KeyBackupFail
  | noFail
  | prepare
  | zipWrite
deriving DecidableEq

/-- Filesystem facts after a `KeyBackup` run. -/
structure KeyBackupState where
  tempDirExists : Bool
  zipComplete : Bool
deriving DecidableEq

/-- Embedding of `KeyBackup.run_backup` (`keyfiles_backup.py` lines 39–43).
`__init__` has already created the temporary staging directory
(`os.makedirs(self.temp_dir, exist_ok=True)`, line 13).  The run is
`prepare_files(); create_encrypted_zip(); cleanup()` in sequence with no
`try`/`finally`: `cleanup()` (which removes the temporary directory) runs
only when both earlier steps succeed. -/
def keyBackupRun (fail : KeyBackupFail) : KeyBackupState :=
  let afterInit : KeyBackupState := { tempDirExists := true, zipComplete := false }
  match fail with
  | .prepare => afterInit
  | .zipWrite => afterInit
  | .noFail => { tempDirExists := false, zipComplete := true }

/-- A minimal concrete file-system snapshot (no files at all), used to
exercise the discovery theorems on a concrete input. -/
def emptyFs : FileSystem :=
  { home := "/home/user"
    pathExists := fun _ => false
    isFile := fun _ => false
    isDir := fun _ => false
    listDir := fun _ => []
    globMatch := fun _ _ => []
    rglobMatch := fun _ _ => []
    expanduser := fun p => p
    histfileEnv := none }

/-! ### Helper lemmas -/

theorem xorKs_xorKs (key nonce : List Nat) : ∀ (i : Nat) (l : List Nat),
    xorKs key nonce i (xorKs key nonce i l) = l := by
  intro i l
  induction l generalizing i with
  | nil => rfl
  | cons b bs ih =>
    simp [xorKs, Nat.xor_assoc, Nat.xor_self, Nat.xor_zero, ih]

theorem xorKs_length (key nonce : List Nat) : ∀ (i : Nat) (l : List Nat),
    (xorKs key nonce i l).length = l.length := by
  intro i l
  induction l generalizing i with
  | nil => rfl
  | cons b bs ih => simp [xorKs, ih]

theorem gcmTag_length (key nonce ct : List Nat) : (gcmTag key nonce ct).length = 16 := by
  simp [gcmTag]

/-- Decryption of `body ++ tag16` splits the blob back at the tag boundary. -/
theorem aesgcmDecrypt_append_tag (key nonce body tg : List Nat) (htg : tg.length = 16) :
    aesgcmDecrypt key nonce (body ++ tg) =
      if tg = gcmTag key nonce body then some (xorKs key nonce 0 body) else none := by
  unfold aesgcmDecrypt
  have h1 : (body ++ tg).length = body.length + 16 := by simp [htg]
  have h2 : (body ++ tg).length - 16 = body.length := by omega
  rw [if_pos (by omega), h2, List.take_left, List.drop_left]

theorem aesgcmDecrypt_encrypt (key nonce pt : List Nat) :
    aesgcmDecrypt key nonce (aesgcmEncrypt key nonce pt) = some pt := by
  unfold aesgcmEncrypt
  rw [aesgcmDecrypt_append_tag key nonce _ _ (gcmTag_length key nonce _), if_pos rfl,
    xorKs_xorKs]

theorem le_of_testBit {b i : Nat} (h : b.testBit i = true) : 2 ^ i ≤ b := by
  by_contra hlt
  push_neg at hlt
  rw [Nat.testBit_eq_false_of_lt hlt] at h
  exact absurd h (by decide)

theorem flipBit_ne (b i : Nat) : flipBit b i ≠ b := by
  have hp := Nat.two_pow_pos i
  unfold flipBit
  by_cases h : b.testBit i = true
  · rw [if_pos h]
    have hb := le_of_testBit h
    omega
  · rw [if_neg h]
    omega

theorem sum_set_getD : ∀ (l : List Nat) (j v : Nat), j < l.length →
    (l.set j v).sum + l.getD j 0 = l.sum + v := by
  intro l
  induction l with
  | nil => intro j v h; simp at h
  | cons b bs ih =>
    intro j v h
    cases j with
    | zero => simp; omega
    | succ k =>
      have hk : k < bs.length := by simpa using h
      have h2 := ih k v hk
      simp only [List.set_cons_succ, List.sum_cons, List.getD_cons_succ]
      omega

theorem getD_le_sum : ∀ (l : List Nat) (j : Nat), l.getD j 0 ≤ l.sum := by
  intro l
  induction l with
  | nil => intro j; simp [List.getD]
  | cons b bs ih =>
    intro j
    cases j with
    | zero => simp
    | succ k =>
      simp only [List.getD_cons_succ, List.sum_cons]
      exact le_trans (ih k) (Nat.le_add_left _ _)

theorem getD_append_right_nat (l1 l2 : List Nat) (j : Nat) (h : l1.length ≤ j) :
    (l1 ++ l2).getD j 0 = l2.getD (j - l1.length) 0 := by
  simp [List.getD_eq_getElem?_getD, List.getElem?_append_right h]

theorem getD_append_left_nat (l1 l2 : List Nat) (j : Nat) (h : j < l1.length) :
    (l1 ++ l2).getD j 0 = l1.getD j 0 := by
  simp [List.getD_eq_getElem?_getD, List.getElem?_append_left h]

theorem getD_set_self (l : List Nat) (m v : Nat) (h : m < l.length) :
    (l.set m v).getD m 0 = v := by
  simp [List.getD_eq_getElem?_getD, List.getElem?_set_self (by simpa using h)]

theorem range16 :
    List.range 16 = [0, 1, 2, 3, 4, 5, 6, 7, 8, 9, 10, 11, 12, 13, 14, 15] := by
  decide

/-- Equal tags force equal checksum bytes (the tag's first byte). -/
theorem gcmTag_sum_congr (key nonce a b : List Nat)
    (h : gcmTag key nonce a = gcmTag key nonce b) :
    (key.sum + nonce.sum + a.sum) % 256 = (key.sum + nonce.sum + b.sum) % 256 := by
  have h0 := congrArg (fun l => l.getD 0 0) h
  simpa [gcmTag, range16] using h0

/-- Flipping one bit of one ciphertext byte changes the tag. -/
theorem gcmTag_set_ne (key nonce ct : List Nat) (j i : Nat)
    (hj : j < ct.length) (hi : i < 8) :
    gcmTag key nonce (ct.set j (flipBit (ct.getD j 0) i)) ≠ gcmTag key nonce ct := by
  intro heq
  have hble : ct.getD j 0 ≤ ct.sum := getD_le_sum ct j
  have hpow_pos : 0 < 2 ^ i := Nat.two_pow_pos i
  have hpow_le : 2 ^ i ≤ 128 := by
    calc 2 ^ i ≤ 2 ^ 7 := Nat.pow_le_pow_right (by omega) (by omega)
    _ = 128 := by norm_num
  by_cases htb : (ct.getD j 0).testBit i = true
  · have hbe : 2 ^ i ≤ ct.getD j 0 := le_of_testBit htb
    have hv : flipBit (ct.getD j 0) i = ct.getD j 0 - 2 ^ i := by
      unfold flipBit; rw [if_pos htb]
    rw [hv] at heq
    have hsum := gcmTag_sum_congr key nonce _ _ heq
    have hset := sum_set_getD ct j (ct.getD j 0 - 2 ^ i) hj
    omega
  · have hv : flipBit (ct.getD j 0) i = ct.getD j 0 + 2 ^ i := by
      unfold flipBit; rw [if_neg htb]
    rw [hv] at heq
    have hsum := gcmTag_sum_congr key nonce _ _ heq
    have hset := sum_set_getD ct j (ct.getD j 0 + 2 ^ i) hj
    omega

/-- Flipping any bit of any byte of the AEAD output makes decryption fail. -/
theorem aesgcmDecrypt_flip (key nonce pt : List Nat) (j i : Nat)
    (hi : i < 8) (hj : j < (aesgcmEncrypt key nonce pt).length) :
    aesgcmDecrypt key nonce (flipByteAt (aesgcmEncrypt key nonce pt) j i) = none := by
  have henc : aesgcmEncrypt key nonce pt
      = xorKs key nonce 0 pt ++ gcmTag key nonce (xorKs key nonce 0 pt) := rfl
  set ct := xorKs key nonce 0 pt with hct
  set tg := gcmTag key nonce ct with htg
  have htglen : tg.length = 16 := gcmTag_length key nonce ct
  rw [henc] at hj ⊢
  have hlen : (ct ++ tg).length = ct.length + 16 := by simp [htglen]
  by_cases hcase : j < ct.length
  · -- the flipped byte lies in the ciphertext part
    have hb : (ct ++ tg).getD j 0 = ct.getD j 0 := getD_append_left_nat ct tg j hcase
    have hset : flipByteAt (ct ++ tg) j i
        = ct.set j (flipBit (ct.getD j 0) i) ++ tg := by
      unfold flipByteAt
      rw [hb, List.set_append_left _ _ hcase]
    have hne : tg ≠ gcmTag key nonce (ct.set j (flipBit (ct.getD j 0) i)) := by
      rw [htg]
      intro hcontra
      exact gcmTag_set_ne key nonce ct j i hcase hi hcontra.symm
    rw [hset, aesgcmDecrypt_append_tag key nonce _ tg htglen, if_neg hne]
  · -- the flipped byte lies in the authentication tag
    push_neg at hcase
    have hm : j - ct.length < 16 := by omega
    have hmtg : j - ct.length < tg.length := by omega
    have hb : (ct ++ tg).getD j 0 = tg.getD (j - ct.length) 0 :=
      getD_append_right_nat ct tg j hcase
    have hset : flipByteAt (ct ++ tg) j i
        = ct ++ tg.set (j - ct.length) (flipBit (tg.getD (j - ct.length) 0) i) := by
      unfold flipByteAt
      rw [hb, List.set_append_right _ _ hcase]
    have htglen2 :
        (tg.set (j - ct.length) (flipBit (tg.getD (j - ct.length) 0) i)).length = 16 := by
      simp [htglen]
    have hne : tg.set (j - ct.length) (flipBit (tg.getD (j - ct.length) 0) i)
        ≠ gcmTag key nonce ct := by
      intro hcontra
      rw [← htg] at hcontra
      have h1 := congrArg (fun l => l.getD (j - ct.length) 0) hcontra
      simp only at h1
      rw [getD_set_self _ _ _ hmtg] at h1
      exact flipBit_ne _ i h1
    rw [hset, aesgcmDecrypt_append_tag key nonce ct _ htglen2, if_neg hne]

theorem mem_foldl_insert (l : List String) :
    ∀ (acc : List String) (f : String),
      f ∈ l.foldl (fun a x => a.insert x) acc ↔ f ∈ acc ∨ f ∈ l := by
  induction l with
  | nil => intro acc f; simp
  | cons x xs ih =>
    intro acc f
    simp only [List.foldl_cons, ih, List.mem_insert_iff, List.mem_cons]
    tauto

theorem nodup_foldl_insert (l : List String) :
    ∀ acc : List String, acc.Nodup → (l.foldl (fun a x => a.insert x) acc).Nodup := by
  induction l with
  | nil => intro acc h; exact h
  | cons x xs ih => intro acc h; exact ih _ h.insert

theorem nodup_discover_fold (fs : FileSystem) (rules : List BackupRule) :
    ∀ acc : List String, acc.Nodup →
      (rules.foldl (fun a r => (ruleFiles fs r).foldl (fun a2 f => a2.insert f) a) acc).Nodup := by
  induction rules with
  | nil => intro acc h; exact h
  | cons r rs ih => intro acc h; exact ih _ (nodup_foldl_insert _ _ h)

theorem mem_discover_fold (fs : FileSystem) (rules : List BackupRule) :
    ∀ (acc : List String) (f : String),
      f ∈ rules.foldl (fun a r => (ruleFiles fs r).foldl (fun a2 x => a2.insert x) a) acc ↔
        f ∈ acc ∨ ∃ r ∈ rules, f ∈ ruleFiles fs r := by
  induction rules with
  | nil => intro acc f; simp
  | cons r rs ih =>
    intro acc f
    simp only [List.foldl_cons, ih, mem_foldl_insert, List.mem_cons]
    constructor
    · rintro (⟨hf | hf⟩ | ⟨r2, hr2, hf⟩)
      · exact Or.inl hf
      · exact Or.inr ⟨r, Or.inl rfl, hf⟩
      · exact Or.inr ⟨r2, Or.inr hr2, hf⟩
    · rintro (hf | ⟨r2, hr2 | hr2, hf⟩)
      · exact Or.inl (Or.inl hf)
      · subst hr2; exact Or.inl (Or.inr hf)
      · exact Or.inr ⟨r2, hr2, hf⟩

/-! ### Claim theorems -/

/-- C1 (amended): `BackupManager.run_backup` leaves no staging root behind
whenever none existed at run start, and removes even a stale pre-existing
staging root whenever the run proceeds past discovery with a non-empty file
list; `KeyBackup.run_backup` removes its temporary directory on normal
completion.  (As stated, the claim fails: `KeyBackup.run_backup` has no
`try`/`finally`, so a failure during zip creation leaves the temporary
directory on disk — see the counterexample.) -/
theorem c1_staging_cleanup :
    (∀ (fail : RunFail) (nFiles : Nat) (s0 : RunFsState), s0.stagingExists = false →
      (run_backup fail nFiles s0).fs.stagingExists = false) ∧
    (∀ (fail : RunFail) (nFiles : Nat) (s0 : RunFsState),
      fail ≠ RunFail.discovery → nFiles ≠ 0 →
      (run_backup fail nFiles s0).fs.stagingExists = false) ∧
    (keyBackupRun KeyBackupFail.noFail).tempDirExists = false := by
  refine ⟨?_, ?_, rfl⟩
  · intro fail n s0 h0
    cases fail with
    | discovery => simpa [run_backup] using h0
    | noFail =>
      by_cases hn : n = 0
      · simpa [run_backup, hn] using h0
      · simp [run_backup, hn, setup_staging_area, cleanup_staging_area, compress_files]
    | stagingAt k =>
      by_cases hn : n = 0
      · simpa [run_backup, hn] using h0
      · simp [run_backup, hn, setup_staging_area, cleanup_staging_area]
    | archiving =>
      by_cases hn : n = 0
      · simpa [run_backup, hn] using h0
      · simp [run_backup, hn, setup_staging_area, cleanup_staging_area, compress_files]
  · intro fail n s0 hf hn
    cases fail with
    | discovery => exact absurd rfl hf
    | noFail =>
      simp [run_backup, hn, setup_staging_area, cleanup_staging_area, compress_files]
    | stagingAt k =>
      simp [run_backup, hn, setup_staging_area, cleanup_staging_area]
    | archiving =>
      simp [run_backup, hn, setup_staging_area, cleanup_staging_area, compress_files]

/-- C1 witness: a clean-start discovery failure and a stale-start archiving
failure both end with no staging root. -/
theorem c1_staging_cleanup_witness :
    (run_backup RunFail.discovery 1
        { stagingExists := false, archive := none }).fs.stagingExists = false ∧
    (run_backup RunFail.archiving 2
        { stagingExists := true, archive := none }).fs.stagingExists = false :=
  ⟨c1_staging_cleanup.1 RunFail.discovery 1 { stagingExists := false, archive := none } rfl,
   c1_staging_cleanup.2.1 RunFail.archiving 2 { stagingExists := true, archive := none }
     (by decide) (by decide)⟩

/-- C1 counterexample: a failure injected while `KeyBackup.create_encrypted_zip`
writes the zip ends the run with the temporary staging directory still on
disk (`KeyBackup.run_backup` has no `try`/`finally` around its phases). -/
theorem c1_keybackup_counterexample :
    (keyBackupRun KeyBackupFail.zipWrite).tempDirExists = true := rfl

/-- C2: decrypting the blob produced by encrypting plaintext `pt` under key
`key` (with the fresh 12-byte nonce `os.urandom(12)` supplies) yields
exactly `pt`, for every key, every nonce of the generated length, and every
byte content including the empty one. -/
theorem c2_round_trip (key nonce pt : List Nat) (hn : nonce.length = 12) :
    decrypt_file key (encrypt_file key nonce pt) = some pt := by
  unfold decrypt_file encrypt_file
  rw [List.take_left' hn, List.drop_left' hn]
  exact aesgcmDecrypt_encrypt key nonce pt

/-- C2 witness: the round trip on the empty plaintext with a concrete key
and nonce. -/
theorem c2_round_trip_witness :
    decrypt_file [1, 2] (encrypt_file [1, 2] (List.replicate 12 0) []) = some [] :=
  c2_round_trip [1, 2] (List.replicate 12 0) [] (by simp)

/-- C3: flipping any bit of any byte of the ciphertext-or-tag portion of an
encryption blob (positions 12 and beyond; the first 12 bytes are the nonce)
makes `decrypt_file` fail — it returns `none` (the `InvalidTag` exception)
and never any plaintext. -/
theorem c3_tamper_rejected (key nonce pt : List Nat) (j i : Nat)
    (hn : nonce.length = 12) (hi : i < 8) (hj12 : 12 ≤ j)
    (hj : j < (encrypt_file key nonce pt).length) :
    decrypt_file key (flipByteAt (encrypt_file key nonce pt) j i) = none := by
  have hlenEnc : (encrypt_file key nonce pt).length
      = nonce.length + (aesgcmEncrypt key nonce pt).length :=
    List.length_append nonce (aesgcmEncrypt key nonce pt)
  have hle : nonce.length ≤ j := by omega
  have hset : flipByteAt (encrypt_file key nonce pt) j i
      = nonce ++ flipByteAt (aesgcmEncrypt key nonce pt) (j - 12) i := by
    unfold flipByteAt encrypt_file
    rw [getD_append_right_nat nonce (aesgcmEncrypt key nonce pt) j hle,
      List.set_append_right _ _ hle, hn]
  have hjA : j - 12 < (aesgcmEncrypt key nonce pt).length := by omega
  rw [hset]
  unfold decrypt_file
  rw [List.take_left' hn, List.drop_left' hn]
  exact aesgcmDecrypt_flip key nonce pt (j - 12) i hi hjA

/-- C3 witness: flipping bit 3 of byte 14 (inside the tag region) of a
concrete blob makes decryption fail. -/
theorem c3_tamper_rejected_witness :
    decrypt_file [5] (flipByteAt (encrypt_file [5] (List.replicate 12 0) [7]) 14 3) = none :=
  c3_tamper_rejected [5] (List.replicate 12 0) [7] 14 3 (by simp) (by omega) (by omega)
    (by decide)

/-- C4: the key `FileEncryptor.__init__` derives is a function of the
passphrase alone — `hashlib.sha256(passphrase.encode()).digest()` — so two
runs with the same passphrase obtain the identical key whatever fresh
per-run randomness each run has; there is no salt input and no expensive
KDF in the derivation.  This refutes the claimed salted, per-run-differing
derivation and matches the source's own comment that a proper KDF should
have been used. -/
theorem c4_key_ignores_run_salt (sha256 : List Nat → List Nat)
    (passphrase salt1 salt2 : List Nat) :
    deriveKeyForRun sha256 passphrase salt1 = deriveKeyForRun sha256 passphrase salt2 := rfl

/-- C5: the discovered list has no duplicates, every member is a regular
file in the snapshot the run evaluates, and permuting the rule list leaves
the discovered set unchanged. -/
theorem c5_discovery_set (fs : FileSystem) (rules rulesPerm : List BackupRule)
    (hperm : rules.Perm rulesPerm) :
    (discover_all_files fs rules).Nodup ∧
    (∀ f ∈ discover_all_files fs rules, fs.isFile f = true) ∧
    (∀ f, f ∈ discover_all_files fs rules ↔ f ∈ discover_all_files fs rulesPerm) := by
  refine ⟨?_, ?_, ?_⟩
  · exact (nodup_discover_fold fs rules [] List.nodup_nil).filter _
  · intro f hf
    exact (List.mem_filter.mp hf).2
  · intro f
    unfold discover_all_files
    simp only [List.mem_filter, mem_discover_fold, List.not_mem_nil, false_or]
    constructor
    · rintro ⟨⟨r, hr, hf⟩, hfile⟩
      exact ⟨⟨r, hperm.mem_iff.mp hr, hf⟩, hfile⟩
    · rintro ⟨⟨r, hr, hf⟩, hfile⟩
      exact ⟨⟨r, hperm.mem_iff.mpr hr, hf⟩, hfile⟩

/-- C5 witness: the discovery properties on a concrete snapshot and a
concrete rule permutation. -/
theorem c5_discovery_set_witness :
    (discover_all_files emptyFs [BackupRule.sshKeys, BackupRule.shellHistory]).Nodup ∧
    (∀ f ∈ discover_all_files emptyFs [BackupRule.sshKeys, BackupRule.shellHistory],
      emptyFs.isFile f = true) ∧
    (∀ f, f ∈ discover_all_files emptyFs [BackupRule.sshKeys, BackupRule.shellHistory] ↔
      f ∈ discover_all_files emptyFs [BackupRule.shellHistory, BackupRule.sshKeys]) :=
  c5_discovery_set emptyFs _ _ (List.Perm.swap _ _ _)

/-- C6 (amended): an archive file appears at the destination only in runs
that staged every discovered file, but the archive is written directly at
its final path (no temporary-file-then-rename step exists in
`Archiver.compress_files`), so a mid-write failure leaves the partially
written archive visible under the final archive name. -/
theorem c6_archive_after_staging :
    (∀ (fail : RunFail) (nFiles : Nat) (s0 : RunFsState),
      s0.archive = none → (run_backup fail nFiles s0).fs.archive ≠ none →
      (run_backup fail nFiles s0).stagedCount = nFiles ∧ nFiles ≠ 0) ∧
    (∀ (nFiles : Nat) (s0 : RunFsState), nFiles ≠ 0 →
      (run_backup RunFail.archiving nFiles s0).fs.archive = some false) := by
  constructor
  · intro fail n s0 h0 harch
    cases fail with
    | discovery => simp [run_backup, h0] at harch
    | noFail =>
      by_cases hn : n = 0
      · simp [run_backup, hn, h0] at harch
      · simp [run_backup, hn, setup_staging_area, cleanup_staging_area, compress_files]
    | stagingAt k =>
      by_cases hn : n = 0
      · simp [run_backup, hn, h0] at harch
      · simp [run_backup, hn, setup_staging_area, cleanup_staging_area, h0] at harch
    | archiving =>
      by_cases hn : n = 0
      · simp [run_backup, hn, h0] at harch
      · simp [run_backup, hn, setup_staging_area, cleanup_staging_area, compress_files]
  · intro n s0 hn
    simp [run_backup, hn, setup_staging_area, cleanup_staging_area, compress_files]

/-- C6 witness: a successful three-file run staged all three files before
the archive appeared, and a concrete mid-write failure leaves the partial
archive at the final path. -/
theorem c6_archive_after_staging_witness :
    ((run_backup RunFail.noFail 3 { stagingExists := false, archive := none }).stagedCount = 3
        ∧ 3 ≠ 0) ∧
    (run_backup RunFail.archiving 1
        { stagingExists := false, archive := none }).fs.archive = some false :=
  ⟨c6_archive_after_staging.1 RunFail.noFail 3 { stagingExists := false, archive := none }
      rfl (by decide),
   c6_archive_after_staging.2 1 { stagingExists := false, archive := none } (by decide)⟩

/-- C6 counterexample: a failure injected in the middle of writing the
archive leaves a truncated archive file visible under the final archive
name (`tarfile.open(archive_path_output, "w:gz")` writes directly to the
destination; the `finally` block removes only the staging root), refuting
the claimed temporary-file-then-rename step. -/
theorem c6_truncated_archive_counterexample :
    (run_backup RunFail.archiving 1
        { stagingExists := false, archive := none }).fs.archive = some false := rfl

/-- C7 (amended): when the two passphrase entries differ,
`BackupManager.__init__` raises the mismatch error before any staging root
is created — but not before every filesystem mutation: the backup
destination directory has already been created (when missing) by the
`mkdir` on the line preceding the prompt. -/
theorem c7_mismatch_aborts_before_staging (destExists : Bool) (p1 p2 : String)
    (hne : p1 ≠ p2) :
    (backupManagerInit destExists true p1 p2).2 = Except.error InitError.passphraseMismatch ∧
    (backupManagerInit destExists true p1 p2).1.stagingCreated = false ∧
    (backupManagerInit destExists true p1 p2).1.destDirCreated = !destExists := by
  simp [backupManagerInit, hne]

/-- C7 witness: a concrete mismatching pair aborts with the mismatch error,
no staging root, and the destination directory freshly created. -/
theorem c7_mismatch_aborts_before_staging_witness :
    (backupManagerInit false true "alpha" "beta").2
        = Except.error InitError.passphraseMismatch ∧
    (backupManagerInit false true "alpha" "beta").1.stagingCreated = false ∧
    (backupManagerInit false true "alpha" "beta").1.destDirCreated = !false :=
  c7_mismatch_aborts_before_staging false "alpha" "beta" (by decide)

/-- C7 counterexample: with a missing destination directory and differing
entries, the run does abort with the mismatch error and without a staging
root, yet the destination directory was created before the abort — a
filesystem mutation preceding the mismatch abort, refuting the claim that
no directory or file is created or modified before it. -/
theorem c7_destination_mkdir_counterexample :
    (backupManagerInit false true "alpha" "beta").1.destDirCreated = true ∧
    (backupManagerInit false true "alpha" "beta").2
        = Except.error InitError.passphraseMismatch := by
  constructor
  · rfl
  · rfl

/-- C8: entering the empty passphrase twice at the prompt is not rejected:
`__init__` completes with `self.encryptor = None` (the Python truthiness
test `if passphrase:` is false for the empty string), and `run_backup`
then stages every file as a plain unencrypted copy — exactly the silent
fallback the claim rules out. -/
theorem c8_empty_passphrase_accepted :
    (backupManagerInit true true "" "").2 = Except.ok { encryptorPresent := false } ∧
    stagingMode false = StagingMode.copy := by
  constructor
  · rfl
  · rfl

/-- C9 (amended): `BackupManager` does not consume the loaded configuration
at all — `__init__` ignores its `config_path` argument and assigns the
hard-coded `config_data` dict, so every loaded configuration yields the
same destination path, staging path, archive format and rules. -/
theorem c9_manager_ignores_loaded_config (loaded : BackupSettings) :
    managerConfigData loaded = hardcodedConfigData := rfl

/-- C9 counterexample: a loaded configuration whose staging path is
`/tmp/elsewhere` still runs with the hard-coded staging path, so the run's
settings do not equal the loaded configuration's settings. -/
theorem c9_config_ignored_counterexample :
    (managerConfigData (loadConfig "/home/user"
        { temporary_staging_path := some "/tmp/elsewhere" })).temporary_staging_path ≠
      (loadConfig "/home/user"
        { temporary_staging_path := some "/tmp/elsewhere" }).temporary_staging_path := by
  decide

/-- C10: whenever `decrypt_file` fails its authentication-tag check, the
output file has nevertheless been created (or truncated) as an empty file,
because `open(output_file_path, 'wb')` runs before the tag is verified;
the error path does not leave the output location unchanged. -/
theorem c10_decrypt_failure_truncates_output
    (fs : String → Option (List Nat)) (inputPath outputPath : String) (key blob : List Nat)
    (hin : fs inputPath = some blob)
    (hfail : decrypt_file key blob = none) :
    (decrypt_file_run fs inputPath outputPath key).2 = Except.error DecryptError.invalidTag ∧
    (decrypt_file_run fs inputPath outputPath key).1 outputPath = some [] := by
  simp [decrypt_file_run, hin, hfail, updateFs]

/-- C10 witness: decrypting a too-short blob fails the tag check and leaves
the output path holding an empty file. -/
theorem c10_decrypt_failure_truncates_output_witness :
    (decrypt_file_run (fun q => if q = "in.enc" then some [] else none)
        "in.enc" "out.txt" []).2 = Except.error DecryptError.invalidTag ∧
    (decrypt_file_run (fun q => if q = "in.enc" then some [] else none)
        "in.enc" "out.txt" []).1 "out.txt" = some [] :=
  c10_decrypt_failure_truncates_output _ "in.enc" "out.txt" [] [] (by simp) (by decide)

end BackupKeyFiles
